import Mathlib

/-!
Verification of the T21C/tuf-backend scoring and leaderboard engine
(`src/parser_module/Core.py`, `src/parser_module/Search.py`).

Python floats are modelled as exact rationals (`ℚ`), Python ints as `ℤ`,
fallible Python code as `Except String` with the exception class name as the
error payload.  `math.pow` (used only in the unreachable
`Utils.getScoreV2Mtp`) is passed in as an explicit function parameter `powf`;
every theorem that touches it quantifies over `powf`, which shows the settled
facts are independent of its value.
-/

namespace TUF

/-- Python runtime values that can appear in judgement data. -/
inductive PyVal where
  | int : ℤ → PyVal
  | float : ℚ → PyVal
  | str : String → PyVal
deriving DecidableEq

/-- The two shapes the `judgements` field takes in the data set: the
named-bucket mapping carried by `PassRecord`s (a field is `Option.none` when
the key is missing from the dict) and the plain seven-element array. -/
inductive Judgements where
  | dict (perfect ePerfect lPerfect earlySingle lateSingle earlyDouble lateDouble : Option PyVal)
  | array (l : List PyVal)
deriving DecidableEq

/-- Python `+` on the value shapes reachable inside `Utils.getXacc`. -/
def pyAdd : PyVal → PyVal → Except String PyVal
  | .int a, .int b => .ok (.int (a + b))
  | .int a, .float b => .ok (.float ((a : ℚ) + b))
  | .float a, .int b => .ok (.float (a + (b : ℚ)))
  | .float a, .float b => .ok (.float (a + b))
  | .str a, .str b => .ok (.str (a ++ b))
  | _, _ => .error "TypeError"

/-- Python `*` with a float literal on the right. -/
def pyMulFloat : PyVal → ℚ → Except String PyVal
  | .int a, q => .ok (.float ((a : ℚ) * q))
  | .float a, q => .ok (.float (a * q))
  | .str _, _ => .error "TypeError"

/-- Python's `sum` builtin: left fold of `+` starting from the int `0`. -/
def pySum (l : List PyVal) : Except String PyVal :=
  l.foldlM (fun acc v => pyAdd acc v) (.int 0)

/-- Python `count > 0`; comparing a str with an int raises `TypeError`. -/
def pyGtZero : PyVal → Except String Bool
  | .int a => .ok (decide (0 < a))
  | .float a => .ok (decide (0 < a))
  | .str _ => .error "TypeError"

/-- Python true division `total / count`. -/
def pyDiv : PyVal → PyVal → Except String ℚ
  | .int a, .int b => if b = 0 then .error "ZeroDivisionError" else .ok ((a : ℚ) / (b : ℚ))
  | .int a, .float b => if b = 0 then .error "ZeroDivisionError" else .ok ((a : ℚ) / b)
  | .float a, .int b => if b = 0 then .error "ZeroDivisionError" else .ok (a / (b : ℚ))
  | .float a, .float b => if b = 0 then .error "ZeroDivisionError" else .ok (a / b)
  | _, _ => .error "TypeError"

/-- A dict key lookup `j['...']`; a missing key raises `KeyError`. -/
def req : Option PyVal → Except String PyVal
  | Option.none => .error "KeyError"
  | some v => .ok v

/-- List indexing `l[i]`; out of range raises `IndexError`. -/
def pyIdx (l : List PyVal) (i : ℕ) : Except String PyVal :=
  match l.get? i with
  | some v => .ok v
  | Option.none => .error "IndexError"

/-- Underlying integer of a `PyVal`; only used under an all-ints guard, where
the non-int defaults are unreachable. -/
def intOf : PyVal → ℤ
  | .int n => n
  | .float _ => 0
  | .str _ => 0

/-- Whether a `PyVal` is a Python `int` (the `type(i) == int` test). -/
def isIntVal : PyVal → Bool
  | .int _ => true
  | _ => false

/-- Body of the `try:` block in the dict branch of `Utils.getXacc`
(Core.py 150-166).  The dict lookups are hoisted ahead of the arithmetic;
Python interleaves them, but both orders are observationally equal here since
every error raised inside the block is caught and mapped to `0.95`. -/
def getXaccDictTry (perfect ePerfect lPerfect earlySingle lateSingle earlyDouble lateDouble :
    Option PyVal) : Except String ℚ := do
  let jP ← req perfect
  let jEP ← req ePerfect
  let jLP ← req lPerfect
  let jES ← req earlySingle
  let jLS ← req lateSingle
  let jED ← req earlyDouble
  let jLD ← req lateDouble
  let t1 ← pyAdd jEP jLP
  let t1 ← pyMulFloat t1 0.75
  let t2 ← pyAdd jES jLS
  let t2 ← pyMulFloat t2 0.4
  let t3 ← pyAdd jED jLD
  let t3 ← pyMulFloat t3 0.2
  let total ← pyAdd jP t1
  let total ← pyAdd total t2
  let total ← pyAdd total t3
  let count ← pySum [jP, jEP, jLP, jES, jLS, jED, jLD]
  let gt ← pyGtZero count
  if gt then pyDiv total count else .ok 0.95

/-- `Utils.getXacc` (Core.py 146-178).  The dict branch catches
`KeyError`/`TypeError`/`ZeroDivisionError` and returns `0.95`; the array
branch is NOT inside a `try`, so its indexing and its division by
`sum(judgements)` can raise. -/
def getXacc : Judgements → Except String ℚ
  | .dict p eP lP eS lS eD lD =>
    match getXaccDictTry p eP lP eS lS eD lD with
    | .ok v => .ok v
    | .error _ => .ok 0.95
  | .array l =>
    if l.all isIntVal then do
      let a3 ← pyIdx l 3
      let a2 ← pyIdx l 2
      let a4 ← pyIdx l 4
      let a1 ← pyIdx l 1
      let a5 ← pyIdx l 5
      let a0 ← pyIdx l 0
      let a6 ← pyIdx l 6
      let s : ℤ := (l.map intOf).sum
      let total : ℚ := (intOf a3 : ℚ) + ((intOf a2 : ℚ) + (intOf a4 : ℚ)) * 0.75 +
        ((intOf a1 : ℚ) + (intOf a5 : ℚ)) * 0.4 + ((intOf a0 : ℚ) + (intOf a6 : ℚ)) * 0.2
      if s = 0 then .error "ZeroDivisionError"
      else .ok (total / (s : ℚ))
    else .ok 0.95

/-- The branch structure of `Utils.getXaccMtp` (Core.py 180-189) as a function
of the computed accuracy; `Option.none` models Python falling off the end of
the `if` chain and implicitly returning `None` (when `xacc * 100 > 100`). -/
def getXaccMtpFn (xacc : ℚ) : Option ℚ :=
  if xacc * 100 < 95 then some 1
  else if xacc * 100 < 100 then some (-0.027 / (xacc - 1.0054) + 0.513)
  else if xacc * 100 = 100 then some 10
  else Option.none

/-- `Utils.getXaccMtp` (Core.py 180-189). -/
def getXaccMtp (inp : Judgements) : Except String (Option ℚ) := do
  let xacc ← getXacc inp
  pure (getXaccMtpFn xacc)

/-- The non-`isDesBus` branch chain of `Utils.getSpeedMtp` (Core.py 228-238). -/
def getSpeedMtpGeneral (SPEED : Option ℚ) : ℚ :=
  match SPEED with
  | Option.none => 1
  | some s =>
    if s = 1 then 1
    else if s < 1 then 0
    else if s < 1.1 then -3.5 * s + 4.5
    else if s < 1.5 then 0.65
    else if s < 2 then 0.7 * s - 0.4
    else 1

/-- `Utils.getSpeedMtp` (Core.py 222-238).  `SPEED` is `none` for Python
`None`.  Note that in the `isDesBus` block, `not SPEED` is true for both
`None` and `0`, and when `0 < SPEED < 1` (or `SPEED < 0`) neither `isDesBus`
branch returns, so control falls through to the general chain — exactly as in
the Python `if` cascade. -/
def getSpeedMtp (SPEED : Option ℚ) (isDesBus : Bool) : ℚ :=
  if isDesBus then
    match SPEED with
    | Option.none => 1
    | some s =>
      if s = 0 then 1
      else if s = 1 then 1
      else if 1 < s then 2 - s
      else getSpeedMtpGeneral (some s)
  else getSpeedMtpGeneral SPEED

/-- Module constant `gmConst` (Core.py 7). -/
def gmConst : ℚ := 315

/-- Module constant `start` (Core.py 8). -/
def start : ℚ := 1

/-- Module constant `end` (Core.py 9); `end` is a Lean keyword. -/
def end' : ℚ := 50

/-- Module constant `startDeduc` (Core.py 10). -/
def startDeduc : ℚ := 10

/-- Module constant `endDeduc` (Core.py 11). -/
def endDeduc : ℚ := 50

/-- Module constant `pwr` (Core.py 12). -/
def pwr : ℚ := 0.7

/-- `Utils.getScoreV2Mtp` (Core.py 126-144).  `powf` stands for `math.pow`.
This function is unreachable from `getScoreV2` in the current source (see the
C8 theorem), so no settled claim depends on `powf`. -/
def getScoreV2Mtp (powf : ℚ → ℚ → ℚ) (tiles : ℤ) (misses : ℤ) : ℚ :=
  if misses = 0 then 1.1
  else
    let tp := (start + end') / 2
    let tpDeduc := (startDeduc + endDeduc) / 2
    let am : ℤ := max 0 (misses - ⌊(tiles : ℚ) / gmConst⌋)
    if am ≤ 0 then 1
    else if (am : ℚ) ≤ start then 1 - startDeduc / 100
    else if (am : ℚ) ≤ tp then
      1 - startDeduc / 100 -
        powf (((am : ℚ) - start) / (tp - start)) pwr * (tpDeduc - startDeduc) / 100
    else if (am : ℚ) ≤ end' then
      1 + powf ((end' - (am : ℚ)) / (end' - tp)) pwr * (endDeduc - tpDeduc) / 100 -
        endDeduc / 100
    else 1 - endDeduc / 100

/-- The chart fields read by the score functions (`chartData['diff']`,
`chartData['baseScore']`); the source binds `chartData['diff']` to a local
variable it names `legacyDiff`. -/
structure ChartData where
  diff : ℚ
  baseScore : ℚ
deriving DecidableEq

/-- The pass fields read by the score functions. -/
structure PassData where
  speed : Option ℚ
  judgements : Judgements
  isNoHoldTap : Bool
deriving DecidableEq

/-- `Utils.getScore` (Core.py 240-262).  With array-shaped `judgements` the
source evaluates `judgements['earlyDouble']` — indexing a list with a string —
which raises an uncaught `TypeError`.  With dict-shaped judgements the seven
lookups happen in the listed order and can raise `KeyError`; the computed
`xaccMtp` being `None` surfaces as the `TypeError` of multiplying by `None`. -/
def getScore (passData : PassData) (chartData : ChartData) : Except String ℚ :=
  match passData.judgements with
  | .array _ => .error "TypeError"
  | .dict p eP lP eS lS eD lD => do
    let vED ← req eD
    let vES ← req eS
    let vEP ← req eP
    let vP ← req p
    let vLP ← req lP
    let vLS ← req lS
    let vLD ← req lD
    let inputs := Judgements.array [vED, vES, vEP, vP, vLP, vLS, vLD]
    let xaccMtpO ← getXaccMtp inputs
    match xaccMtpO with
    | Option.none => .error "TypeError"
    | some xaccMtp =>
      if chartData.diff = 64 then
        .ok (max (chartData.baseScore * xaccMtp * getSpeedMtp passData.speed true) 1)
      else
        .ok (chartData.baseScore * xaccMtp * getSpeedMtp passData.speed false)

/-- `Utils.getScoreV2` (Core.py 264-273).  For dict-shaped judgements the
comprehension `all([type(i) == int for i in inputs])` iterates the dict's KEYS
(strings), so it is `True` only for an empty dict — in which case the slice
`inputs[1:-1]` raises `TypeError` — and `False` (hence `mtp = 1`) whenever any
key is present.  `inputs[0]` is hoisted out of `getScoreV2Mtp`, where the
source reads it as the miss count. -/
def getScoreV2 (powf : ℚ → ℚ → ℚ) (passData : PassData) (chartData : ChartData) :
    Except String ℚ := do
  let inputs := passData.judgements
  let scoreOrig ← getScore passData chartData
  let mtp ← (match inputs with
    | .dict p eP lP eS lS eD lD =>
      if p.isNone && eP.isNone && lP.isNone && eS.isNone && lS.isNone && eD.isNone && lD.isNone
      then (.error "TypeError" : Except String ℚ)
      else .ok 1
    | .array l =>
      if l.all isIntVal then do
        let tilecount : ℤ := ((l.map intOf).drop 1).dropLast.sum
        let m0 ← pyIdx l 0
        .ok (getScoreV2Mtp powf tilecount (intOf m0))
      else .ok 1)
  let mtp := if passData.isNoHoldTap then mtp * 0.9 else mtp
  pure (scoreOrig * mtp)

/-! ### Derived shapes used to state the score claims -/

/-- A `PassRecord`-shaped judgements dict with all seven integer counts
present, taken in the array order (earlyDouble, earlySingle, ePerfect,
perfect, lPerfect, lateSingle, lateDouble). -/
def judgementsOfCounts (eD eS ePf pf lP lS lD : ℤ) : Judgements :=
  Judgements.dict (some (.int pf)) (some (.int ePf)) (some (.int lP)) (some (.int eS))
    (some (.int lS)) (some (.int eD)) (some (.int lD))

/-- The weighted accuracy the array branch of `getXacc` computes on integer
counts (meaningful when the total is nonzero). -/
def xaccOfCounts (eD eS ePf pf lP lS lD : ℤ) : ℚ :=
  ((pf : ℚ) + ((ePf : ℚ) + (lP : ℚ)) * 0.75 + ((eS : ℚ) + (lS : ℚ)) * 0.4 +
    ((eD : ℚ) + (lD : ℚ)) * 0.2) / ((eD : ℚ) + (eS : ℚ) + (ePf : ℚ) + (pf : ℚ) + (lP : ℚ) + (lS : ℚ) + (lD : ℚ))

/-- The non-special speed curve exactly as claim C6 words it; a spec-side
definition, compared with the source's `getSpeedMtp` below. -/
def speedMtpClaimed : Option ℚ → ℚ
  | Option.none => 1
  | some s =>
    if s = 1 then 1
    else if s < 1 then 0
    else if s < 1.1 then -3.5 * s + 4.5
    else if s < 1.5 then 0.65
    else if s < 2 then 0.7 * s - 0.4
    else 1

/-! ### The dict-backed record objects (`PlayerObj`, `ResultObj`) -/

/-- Values stored in record params. `judge` carries a judgements dict stored
verbatim as a value (as `searchByPlayer` does); `pyNone` is Python `None`. -/
inductive RVal where
  | str : String → RVal
  | num : ℚ → RVal
  | int : ℤ → RVal
  | bool : Bool → RVal
  | date : ℤ → RVal
  | listInt : List ℤ → RVal
  | judge : ℤ → ℤ → ℤ → ℤ → ℤ → ℤ → ℤ → RVal
  | pyNone : RVal
deriving DecidableEq

/-- The first key of an update that is missing from the record's schema — the
validation loop of `updateParams` (Core.py 34-38 and 83-87), which runs to a
raise BEFORE any write happens. -/
def firstBadKey (schema : List String) : List String → Option String
  | [] => Option.none
  | k :: ks => if k ∈ schema then firstBadKey schema ks else some k

/-- One `dict[k] = v` step of Python `dict.update`: overwrite an existing key
in place, append a genuinely new key at the end. -/
def setKey {V : Type} (params : List (String × V)) (kv : String × V) : List (String × V) :=
  if params.any fun p => p.1 = kv.1 then
    params.map fun p => if p.1 = kv.1 then kv else p
  else params ++ [kv]

/-- Python `self.params.update(inp)`. -/
def dictUpdate {V : Type} (params : List (String × V)) (inp : List (String × V)) :
    List (String × V) :=
  inp.foldl setKey params

/-- `updateParams`, shared verbatim by `PlayerObj` (Core.py 34-40) and
`ResultObj` (Core.py 83-89): every key of `inp` is checked against the
record's CURRENT keys before `self.params.update(inp)` runs, so when the
`ValueError` (second component) fires the params (first component) are the
untouched originals; the error message carries the first offending key. -/
def updateParams {V : Type} (params : List (String × V)) (inp : List (String × V)) :
    List (String × V) × Option String :=
  match firstBadKey (params.map Prod.fst) (inp.map Prod.fst) with
  | some k => (params, some ("Incorrect key! " ++ k))
  | Option.none => (dictUpdate params inp, Option.none)

/-- `ResultObj.__init__`'s parameter dict (Core.py 59-81).  Its key set has
`levelId` and no `chartId`. -/
def resultObjInit : List (String × RVal) :=
  [("player", .str ""), ("playerId", .int 0), ("song", .str ""), ("artist", .str ""),
   ("score", .str ""), ("pguDiff", .int 0), ("Xacc", .int 0), ("speed", .num 1),
   ("isWorldsFirst", .bool false), ("vidLink", .str ""), ("feelingRating", .str ""),
   ("date", .pyNone), ("is12K", .bool false), ("is16K", .bool false),
   ("isNoHold", .bool false), ("judgements", .listInt []), ("pdnDiff", .int 0),
   ("levelId", .int 0), ("passId", .int 0), ("baseScore", .int 0), ("isDeleted", .bool false)]

/-- `PlayerObj.__init__`'s parameter dict (Core.py 17-31). -/
def playerObjInit : List (String × RVal) :=
  [("player", .str ""), ("playerId", .int 0), ("rankedScore", .int 0),
   ("generalScore", .int 0), ("ppScore", .int 0), ("wfScore", .int 0),
   ("12kScore", .int 0), ("avgXacc", .int 0), ("totalPasses", .int 0),
   ("universalPasses", .int 0), ("WFPasses", .int 0), ("topDiff", .str ""),
   ("top12kDiff", .str ""), ("country", .str "")]

/-! ### The stored pass/chart records consumed by `Search.py` -/

/-- Judgement counts of one stored pass (named-bucket form). -/
structure SJudge where
  earlyDouble : ℤ
  earlySingle : ℤ
  ePerfect : ℤ
  perfect : ℤ
  lPerfect : ℤ
  lateSingle : ℤ
  lateDouble : ℤ
deriving DecidableEq

/-- The fields of a stored pass read by the search pipelines. -/
structure SPass where
  player : String
  playerId : ℤ
  id : ℤ
  levelId : ℤ
  speed : Option ℚ
  judgements : SJudge
  vidUploadTime : String
  vidLink : String
  feelingRating : String
  isWorldsFirst : Bool
  is12K : Bool
  is16K : Bool
  isNoHoldTap : Bool
  isDeleted : Bool
deriving DecidableEq

/-- The fields of a stored chart read by the search pipelines. -/
structure SChart where
  id : ℤ
  song : String
  artist : String
  pguDiff : String
  diff : ℚ
  pdnDiff : ℚ
  baseScore : ℚ
deriving DecidableEq

/-- The `judgements_array` literal (Search.py 74-82). -/
def judgeArr (j : SJudge) : List PyVal :=
  [.int j.earlyDouble, .int j.earlySingle, .int j.ePerfect, .int j.perfect,
   .int j.lPerfect, .int j.lateSingle, .int j.lateDouble]

/-- The same seven counts as plain integers (the `"judgements"` value stored
by `searchByChart`). -/
def judgeInts (j : SJudge) : List ℤ :=
  [j.earlyDouble, j.earlySingle, j.ePerfect, j.perfect, j.lPerfect, j.lateSingle, j.lateDouble]

/-- A stored pass's judgements dict as the score functions receive it. -/
def judgeDict (j : SJudge) : Judgements :=
  judgementsOfCounts j.earlyDouble j.earlySingle j.ePerfect j.perfect j.lPerfect
    j.lateSingle j.lateDouble

/-- The slice of a stored pass handed to `getScoreV2` as `passData`. -/
def passToPassData (p : SPass) : PassData :=
  ⟨p.speed, judgeDict p.judgements, p.isNoHoldTap⟩

/-- `Pass["speed"] or 1.0` (Search.py 92) and `if not Pass["speed"]`
(Search.py 189-192): both `None` and `0` are falsy and give `1.0`. -/
def speedOr1 : Option ℚ → ℚ
  | Option.none => 1
  | some s => if s = 0 then 1 else s

/-- The `try: strptime ... except: fallback` date computation.  `parseDate`
models the external `datetime.strptime` (`Option.none` = raises) applied to
`vidUploadTime.split(".")[0]`; `fb` is the fallback (`datetime.today()` in
`searchByChart`, the constant `datetime(2022, 1, 1)` in `searchByPlayer`). -/
def parsedDate (parseDate : String → Option ℤ) (fb : ℤ) (s : String) : ℤ :=
  match parseDate s with
  | some d => d
  | Option.none => fb

/-- Well-formed stored judgement counts: non-negative with a positive total
(what real pass data satisfies; it makes the score computation succeed). -/
def wfJudge (j : SJudge) : Prop :=
  0 ≤ j.earlyDouble ∧ 0 ≤ j.earlySingle ∧ 0 ≤ j.ePerfect ∧ 0 ≤ j.perfect ∧
  0 ≤ j.lPerfect ∧ 0 ≤ j.lateSingle ∧ 0 ≤ j.lateDouble ∧
  0 < j.earlyDouble + j.earlySingle + j.ePerfect + j.perfect + j.lPerfect +
    j.lateSingle + j.lateDouble

instance (j : SJudge) : Decidable (wfJudge j) := by
  unfold wfJudge
  infer_instance

/-- One iteration of the `searchByChart` Scores loop (Search.py 65-106): the
date is computed first, then the dict-literal values in source order (among
them `getScoreV2`, then `getXacc` on `judgements_array`), then
`ResultObj().updateParams`.  The update dict carries the key `"chartId"`. -/
def mkChartResult (powf : ℚ → ℚ → ℚ) (parseDate : String → Option ℤ) (fb : ℤ)
    (p : SPass) (c : SChart) : Except String (List (String × RVal)) := do
  let date := parsedDate parseDate fb p.vidUploadTime
  let score ← getScoreV2 powf (passToPassData p) ⟨c.diff, c.baseScore⟩
  let xacc ← getXacc (.array (judgeArr p.judgements))
  let res := updateParams resultObjInit
    [("player", .str p.player), ("playerId", .int p.playerId), ("song", .str c.song),
     ("artist", .str c.artist), ("score", .num score), ("pguDiff", .str c.pguDiff),
     ("Xacc", .num xacc), ("speed", .num (speedOr1 p.speed)),
     ("isWorldsFirst", .bool false), ("vidLink", .str p.vidLink),
     ("feelingRating", .str p.feelingRating), ("date", .date date),
     ("is12K", .bool p.is12K), ("is16K", .bool p.is16K),
     ("isNoHold", .bool p.isNoHoldTap), ("judgements", .listInt (judgeInts p.judgements)),
     ("pdnDiff", .num c.pdnDiff), ("chartId", .int c.id), ("passId", .int p.id),
     ("baseScore", .num c.baseScore), ("isDeleted", .bool p.isDeleted)]
  match res.2 with
  | some e => .error e
  | Option.none => .ok res.1

/-- The Scores-building phase of `searchByChart` (Search.py 64-106), run on
the passes that matched the chart id.  The post-processing (Search.py
108-128: sort, world-first, dedup) is modelled at record level by
`markWorldsFirst`/`dedupKeepFirst` below; execution never reaches it because
every `mkChartResult` raises (claim C1). -/
def searchByChartScoresPhase (powf : ℚ → ℚ → ℚ) (parseDate : String → Option ℤ) (fb : ℤ)
    (c : SChart) (validPasses : List SPass) : Except String (List (List (String × RVal))) :=
  validPasses.mapM fun p => mkChartResult powf parseDate fb p c

/-- One known-chart iteration of the `searchByPlayer` Scores loop
(Search.py 180-215).  Differences from the chart loop: the queried player's
id is stored, `isWorldsFirst` is the pass's precomputed flag, `Xacc` is
computed on the judgements DICT, and that dict itself is stored under
`"judgements"`.  The update dict again carries the key `"chartId"`. -/
def mkPlayerResult (powf : ℚ → ℚ → ℚ) (parseDate : String → Option ℤ) (fb : ℤ)
    (pid : ℤ) (p : SPass) (c : SChart) : Except String (List (String × RVal)) := do
  let date := parsedDate parseDate fb p.vidUploadTime
  let speed := speedOr1 p.speed
  let score ← getScoreV2 powf (passToPassData p) ⟨c.diff, c.baseScore⟩
  let xacc ← getXacc (judgeDict p.judgements)
  let j := p.judgements
  let res := updateParams resultObjInit
    [("player", .str p.player), ("playerId", .int pid), ("song", .str c.song),
     ("artist", .str c.artist), ("score", .num score), ("pguDiff", .str c.pguDiff),
     ("Xacc", .num xacc), ("speed", .num speed),
     ("isWorldsFirst", .bool p.isWorldsFirst), ("vidLink", .str p.vidLink),
     ("feelingRating", .str p.feelingRating), ("date", .date date),
     ("is12K", .bool p.is12K), ("is16K", .bool p.is16K),
     ("isNoHold", .bool p.isNoHoldTap),
     ("judgements", .judge j.earlyDouble j.earlySingle j.ePerfect j.perfect j.lPerfect
        j.lateSingle j.lateDouble),
     ("pdnDiff", .num c.pdnDiff), ("chartId", .int c.id), ("passId", .int p.id),
     ("baseScore", .num c.baseScore), ("isDeleted", .bool p.isDeleted)]
  match res.2 with
  | some e => .error e
  | Option.none => .ok res.1

/-- The Scores-building phase of the `searchByPlayer` per-pass loop
(Search.py 175-215): a pass whose `levelId` resolves to no chart is skipped
(`continue`); the other per-pass bookkeeping (the `firstPasses` counter and
the topDiff tracking inside its own `try/except`) cannot raise and does not
affect the modelled outcome. -/
def searchByPlayerScoresPhase (powf : ℚ → ℚ → ℚ) (parseDate : String → Option ℤ) (fb : ℤ)
    (pid : ℤ) (charts : List SChart) : List SPass → Except String (List (List (String × RVal)))
  | [] => .ok []
  | p :: rest =>
    match charts.find? fun c => c.id == p.levelId with
    | Option.none => searchByPlayerScoresPhase powf parseDate fb pid charts rest
    | some c => do
      let r ← mkPlayerResult powf parseDate fb pid p c
      let rs ← searchByPlayerScoresPhase powf parseDate fb pid charts rest
      .ok (r :: rs)

/-! ### Record-level sort / world-first / dedup pipeline -/

/-- The fields of a built ResultRecord that the sort, world-first and dedup
logic reads (Search.py 108-128 and 238-248). -/
structure Rec where
  score : ℚ
  chartId : ℤ
  playerId : ℤ
  passId : ℤ
  date : ℤ
  isWorldsFirst : Bool
  is12K : Bool
deriving DecidableEq

instance : DecidableRel fun (a b : Rec) => a.score ≤ b.score :=
  fun a b => inferInstanceAs (Decidable (a.score ≤ b.score))

instance : DecidableRel fun (a b : Rec) => a.date ≤ b.date :=
  fun a b => inferInstanceAs (Decidable (a.date ≤ b.date))

instance : IsTotal Rec fun a b => a.score ≤ b.score :=
  ⟨fun a b => le_total a.score b.score⟩

instance : IsTrans Rec fun a b => a.score ≤ b.score :=
  ⟨fun _ _ _ h h2 => le_trans h h2⟩

instance : IsTotal Rec fun a b => a.date ≤ b.date :=
  ⟨fun a b => le_total a.date b.date⟩

instance : IsTrans Rec fun a b => a.date ≤ b.date :=
  ⟨fun _ _ _ h h2 => le_trans h h2⟩

/-- `list(reversed(sorted(Scores, key=lambda x: x["score"])))` (Search.py 110
and 239): Python's `sorted` is stable and ascending, which insertion sort
with `≤` on the key reproduces exactly; the list is then reversed. -/
def sortDescScore (l : List Rec) : List Rec :=
  (List.insertionSort (fun a b => a.score ≤ b.score) l).reverse

/-- The dedup loop: walk the (already score-descending) list, keep the first
record per key while tracking `usedIds` (Search.py 118-123 with key
`playerId`; Search.py 240-248 with key `chartId`). -/
def dedupKeepFirst (key : Rec → ℤ) : List Rec → List ℤ → List Rec
  | [], _ => []
  | r :: rest, used =>
    if key r ∈ used then dedupKeepFirst key rest used
    else r :: dedupKeepFirst key rest (key r :: used)

/-- `searchByPlayer`'s sort plus dedup (Search.py 239-248) with the default
`TwvKOnly=False`: score-descending order, then first occurrence per
`chartId` wins. -/
def searchByPlayerDedup (l : List Rec) : List Rec :=
  dedupKeepFirst (fun r => r.chartId) (sortDescScore l) []

/-- `searchByChart`'s world-first marking (Search.py 114-115): re-sort the
score-descending list ascending by date and set `isWorldsFirst` on its first
element.  Python mutates that `ResultObj` in place; object identity is
modelled by matching on `passId` (ids of stored passes are distinct). -/
def markWorldsFirst (l : List Rec) : List Rec :=
  let scores := sortDescScore l
  match (List.insertionSort (fun a b => a.date ≤ b.date) scores).head? with
  | Option.none => scores
  | some w =>
    scores.map fun r => if r.passId = w.passId then { r with isWorldsFirst := true } else r

/-- `searchByChart`'s returned leaderboard (Search.py 108-128 with
`getDates=False`): flag the world first, then dedup by player over the
score-descending list. -/
def searchByChartBoard (l : List Rec) : List Rec :=
  dedupKeepFirst (fun r => r.playerId) (markWorldsFirst l) []

/-! ### The global player-leaderboard sort key -/

/-- `Utils.allPassSortPriority` (Core.py 106-118). -/
def allPassSortPriority : List String :=
  ["rankedScore", "generalScore", "universalPasses", "avgXacc", "ppScore",
   "12kScore", "WFPasses", "totalPasses", "topDiff", "top12kDiff", "player"]

/-- `Utils.allClearSortPriority` (Core.py 119-124). -/
def allClearSortPriority : List String :=
  ["score", "Xacc", "pdnDiff", "date"]

/-- One aggregated player-leaderboard record: the `PlayerObj` params written
by `searchByPlayer` (Search.py 271-285).  `twelveKScore` carries the
`"12kScore"` key. -/
structure PlayerParams where
  player : String
  playerId : ℤ
  rankedScore : ℚ
  generalScore : ℚ
  ppScore : ℚ
  wfScore : ℚ
  twelveKScore : ℚ
  avgXacc : ℚ
  totalPasses : ℤ
  universalPasses : ℤ
  WFPasses : ℤ
  topDiff : String
  top12kDiff : String
  country : String
deriving DecidableEq

/-- The values Python actually compares when sorting the leaderboard. -/
inductive PyKey where
  | num : ℚ → PyKey
  | str : String → PyKey
deriving DecidableEq

/-- `x[criteria]` on a player record.  The catch-all is unreachable: criteria
are always drawn from `allPassSortPriority`. -/
def playerField (x : PlayerParams) : String → PyKey
  | "rankedScore" => .num x.rankedScore
  | "generalScore" => .num x.generalScore
  | "universalPasses" => .num (x.universalPasses : ℚ)
  | "avgXacc" => .num x.avgXacc
  | "ppScore" => .num x.ppScore
  | "12kScore" => .num x.twelveKScore
  | "WFPasses" => .num (x.WFPasses : ℚ)
  | "totalPasses" => .num (x.totalPasses : ℚ)
  | "topDiff" => .str x.topDiff
  | "top12kDiff" => .str x.top12kDiff
  | "player" => .str x.player
  | _ => .num 0

/-- `sortCriteria = [sortBy] + priority` with the default
`sortBy="rankedScore"` (Search.py 337-339). -/
def sortCriteria : List String :=
  "rankedScore" :: (allPassSortPriority.erase "rankedScore")

/-- The composite sort key `[x[criteria] for criteria in sortCriteria]`
(Search.py 340). -/
def playerSortKey (x : PlayerParams) : List PyKey :=
  sortCriteria.map (playerField x)

/-- Python `<` on two leaderboard values.  Only same-type comparisons occur
(every record yields the same runtime type at each key position); the
mixed-type case, which would raise in Python, is modelled as `False` and is
unreachable here. -/
def pyKeyLt : PyKey → PyKey → Prop
  | .num a, .num b => a < b
  | .str a, .str b => a < b
  | _, _ => False

/-- Python's lexicographic `<` on the key lists (equal length throughout). -/
def pyListLt : List PyKey → List PyKey → Prop
  | [], [] => False
  | [], _ :: _ => True
  | _ :: _, [] => False
  | x :: xs, y :: ys => pyKeyLt x y ∨ (x = y ∧ pyListLt xs ys)

/-! ## Helper lemmas -/

lemma firstBadKey_eq_none_iff (schema : List String) :
    ∀ ks : List String, firstBadKey schema ks = Option.none ↔ ∀ k ∈ ks, k ∈ schema
  | [] => by simp [firstBadKey]
  | k :: ks => by
    by_cases h : k ∈ schema
    · simp [firstBadKey, h, firstBadKey_eq_none_iff schema ks]
    · simp [firstBadKey, h]

/-- Evaluation of `getXacc` on a seven-element all-integer array with nonzero
total. -/
lemma getXacc_counts (eD eS ePf pf lP lS lD : ℤ)
    (hS : eD + eS + ePf + pf + lP + lS + lD ≠ 0) :
    getXacc (.array [.int eD, .int eS, .int ePf, .int pf, .int lP, .int lS, .int lD]) =
      .ok (xaccOfCounts eD eS ePf pf lP lS lD) := by
  show (if (([PyVal.int eD, .int eS, .int ePf, .int pf, .int lP, .int lS, .int lD].map intOf).sum) = 0
      then (Except.error "ZeroDivisionError" : Except String ℚ)
      else .ok (((pf : ℚ) + ((ePf : ℚ) + (lP : ℚ)) * 0.75 + ((eS : ℚ) + (lS : ℚ)) * 0.4 +
        ((eD : ℚ) + (lD : ℚ)) * 0.2) /
        ((([PyVal.int eD, .int eS, .int ePf, .int pf, .int lP, .int lS, .int lD].map intOf).sum : ℤ) : ℚ))) =
    Except.ok (xaccOfCounts eD eS ePf pf lP lS lD)
  rw [if_neg (by
    simp only [List.map_cons, List.map_nil, intOf, List.sum_cons, List.sum_nil]
    intro h
    exact hS (by linarith))]
  unfold xaccOfCounts
  congr 1
  simp only [List.map_cons, List.map_nil, intOf, List.sum_cons, List.sum_nil]
  push_cast
  ring_nf

lemma getXaccMtpFn_isSome (x : ℚ) (h0 : 0 ≤ x) (h1 : x ≤ 1) :
    ∃ m, getXaccMtpFn x = some m := by
  clear h0
  unfold getXaccMtpFn
  by_cases hA : x * 100 < 95
  · exact ⟨1, by rw [if_pos hA]⟩
  · by_cases hB : x * 100 < 100
    · exact ⟨_, by rw [if_neg hA, if_pos hB]⟩
    · have hC : x * 100 = 100 := by nlinarith
      exact ⟨10, by rw [if_neg hA, if_neg hB, if_pos hC]⟩

lemma xaccOfCounts_bounds (eD eS ePf pf lP lS lD : ℤ)
    (h1 : 0 ≤ eD) (h2 : 0 ≤ eS) (h3 : 0 ≤ ePf) (h4 : 0 ≤ pf) (h5 : 0 ≤ lP)
    (h6 : 0 ≤ lS) (h7 : 0 ≤ lD) (hS : 0 < eD + eS + ePf + pf + lP + lS + lD) :
    0 ≤ xaccOfCounts eD eS ePf pf lP lS lD ∧ xaccOfCounts eD eS ePf pf lP lS lD ≤ 1 := by
  have c1 : (0 : ℚ) ≤ (eD : ℚ) := by exact_mod_cast h1
  have c2 : (0 : ℚ) ≤ (eS : ℚ) := by exact_mod_cast h2
  have c3 : (0 : ℚ) ≤ (ePf : ℚ) := by exact_mod_cast h3
  have c4 : (0 : ℚ) ≤ (pf : ℚ) := by exact_mod_cast h4
  have c5 : (0 : ℚ) ≤ (lP : ℚ) := by exact_mod_cast h5
  have c6 : (0 : ℚ) ≤ (lS : ℚ) := by exact_mod_cast h6
  have c7 : (0 : ℚ) ≤ (lD : ℚ) := by exact_mod_cast h7
  have hd : (0 : ℚ) < (eD : ℚ) + (eS : ℚ) + (ePf : ℚ) + (pf : ℚ) + (lP : ℚ) + (lS : ℚ) + (lD : ℚ) := by
    exact_mod_cast hS
  unfold xaccOfCounts
  constructor
  · apply div_nonneg _ (le_of_lt hd)
    nlinarith
  · rw [div_le_one hd]
    nlinarith

/-- Evaluation of `getScore` on a pass with all named judgement buckets
present as integers. -/
lemma getScore_counts (eD eS ePf pf lP lS lD : ℤ) (sp : Option ℚ) (nht : Bool)
    (diff base m : ℚ) (hS : eD + eS + ePf + pf + lP + lS + lD ≠ 0)
    (hm : getXaccMtpFn (xaccOfCounts eD eS ePf pf lP lS lD) = some m) :
    getScore ⟨sp, judgementsOfCounts eD eS ePf pf lP lS lD, nht⟩ ⟨diff, base⟩ =
      .ok (if diff = 64 then max (base * m * getSpeedMtp sp true) 1
           else base * m * getSpeedMtp sp false) := by
  have e : getXaccMtp (.array [PyVal.int eD, .int eS, .int ePf, .int pf, .int lP, .int lS, .int lD]) =
      .ok (getXaccMtpFn (xaccOfCounts eD eS ePf pf lP lS lD)) := by
    unfold getXaccMtp
    rw [getXacc_counts eD eS ePf pf lP lS lD hS]
    rfl
  show Except.bind
      (getXaccMtp (Judgements.array [.int eD, .int eS, .int ePf, .int pf, .int lP, .int lS, .int lD]))
      (fun xaccMtpO => match xaccMtpO with
        | Option.none => Except.error "TypeError"
        | some xaccMtp =>
          if diff = 64 then Except.ok (max (base * xaccMtp * getSpeedMtp sp true) 1)
          else Except.ok (base * xaccMtp * getSpeedMtp sp false)) =
    Except.ok (if diff = 64 then max (base * m * getSpeedMtp sp true) 1
      else base * m * getSpeedMtp sp false)
  rw [e, hm]
  show (if diff = 64 then Except.ok (max (base * m * getSpeedMtp sp true) 1)
      else Except.ok (base * m * getSpeedMtp sp false)) = _
  split
  · rfl
  · rfl

/-- On dict judgements 'all(type(i) == int ...)' iterates keys, so `mtp`
stays `1` and only the `isNoHoldTap` factor applies. -/
lemma getScoreV2_counts (powf : ℚ → ℚ → ℚ) (eD eS ePf pf lP lS lD : ℤ) (sp : Option ℚ)
    (nht : Bool) (diff base s : ℚ)
    (hsc : getScore ⟨sp, judgementsOfCounts eD eS ePf pf lP lS lD, nht⟩ ⟨diff, base⟩ = .ok s) :
    getScoreV2 powf ⟨sp, judgementsOfCounts eD eS ePf pf lP lS lD, nht⟩ ⟨diff, base⟩ =
      .ok (s * (if nht then 1 * 0.9 else 1)) := by
  show Except.bind (getScore ⟨sp, judgementsOfCounts eD eS ePf pf lP lS lD, nht⟩ ⟨diff, base⟩)
      (fun scoreOrig => Except.bind (Except.ok (1 : ℚ))
        (fun mtp => pure (scoreOrig * (if nht then mtp * 0.9 else mtp)))) =
    Except.ok (s * (if nht then 1 * 0.9 else 1))
  rw [hsc]
  rfl

lemma getXacc_dict_ok (p eP lP eS lS eD lD : Option PyVal) :
    ∃ v, getXacc (.dict p eP lP eS lS eD lD) = .ok v := by
  rcases h : getXaccDictTry p eP lP eS lS eD lD with e | v
  · exact ⟨0.95, by simp [getXacc, h]⟩
  · exact ⟨v, by simp [getXacc, h]⟩

lemma getScoreV2_wf_ok (powf : ℚ → ℚ → ℚ) (j : SJudge) (sp : Option ℚ) (nht : Bool)
    (diff base : ℚ) (hj : wfJudge j) :
    ∃ v, getScoreV2 powf ⟨sp, judgeDict j, nht⟩ ⟨diff, base⟩ = .ok v := by
  unfold judgeDict
  obtain ⟨h1, h2, h3, h4, h5, h6, h7, hS⟩ := hj
  obtain ⟨hx0, hx1⟩ := xaccOfCounts_bounds j.earlyDouble j.earlySingle j.ePerfect j.perfect
    j.lPerfect j.lateSingle j.lateDouble h1 h2 h3 h4 h5 h6 h7 hS
  obtain ⟨m, hm⟩ := getXaccMtpFn_isSome _ hx0 hx1
  have hsc := getScore_counts j.earlyDouble j.earlySingle j.ePerfect j.perfect j.lPerfect
    j.lateSingle j.lateDouble sp nht diff base m (ne_of_gt hS) hm
  exact ⟨_, getScoreV2_counts powf j.earlyDouble j.earlySingle j.ePerfect j.perfect j.lPerfect
    j.lateSingle j.lateDouble sp nht diff base _ hsc⟩

lemma getXacc_arr_ok (j : SJudge) (hj : wfJudge j) :
    ∃ v, getXacc (.array (judgeArr j)) = .ok v := by
  unfold judgeArr
  obtain ⟨h1, h2, h3, h4, h5, h6, h7, hS⟩ := hj
  exact ⟨_, getXacc_counts j.earlyDouble j.earlySingle j.ePerfect j.perfect j.lPerfect
    j.lateSingle j.lateDouble (ne_of_gt hS)⟩

/-- Every record the `searchByChart` loop builds raises the schema-mismatch
`ValueError` on the key `"chartId"`. -/
lemma mkChartResult_raises (powf : ℚ → ℚ → ℚ) (parseDate : String → Option ℤ) (fb : ℤ)
    (p : SPass) (c : SChart) (hj : wfJudge p.judgements) :
    mkChartResult powf parseDate fb p c = .error "Incorrect key! chartId" := by
  obtain ⟨v, hv⟩ := getScoreV2_wf_ok powf p.judgements p.speed p.isNoHoldTap c.diff c.baseScore hj
  obtain ⟨x, hx⟩ := getXacc_arr_ok p.judgements hj
  unfold mkChartResult passToPassData
  rw [hv, hx]
  rfl

/-- Every record the `searchByPlayer` loop builds raises the schema-mismatch
`ValueError` on the key `"chartId"`. -/
lemma mkPlayerResult_raises (powf : ℚ → ℚ → ℚ) (parseDate : String → Option ℤ) (fb pid : ℤ)
    (p : SPass) (c : SChart) (hj : wfJudge p.judgements) :
    mkPlayerResult powf parseDate fb pid p c = .error "Incorrect key! chartId" := by
  obtain ⟨v, hv⟩ := getScoreV2_wf_ok powf p.judgements p.speed p.isNoHoldTap c.diff c.baseScore hj
  obtain ⟨x, hx⟩ := getXacc_dict_ok (some (.int p.judgements.perfect))
    (some (.int p.judgements.ePerfect)) (some (.int p.judgements.lPerfect))
    (some (.int p.judgements.earlySingle)) (some (.int p.judgements.lateSingle))
    (some (.int p.judgements.earlyDouble)) (some (.int p.judgements.lateDouble))
  unfold mkPlayerResult passToPassData
  rw [hv]
  rw [show judgeDict p.judgements = Judgements.dict (some (.int p.judgements.perfect))
    (some (.int p.judgements.ePerfect)) (some (.int p.judgements.lPerfect))
    (some (.int p.judgements.earlySingle)) (some (.int p.judgements.lateSingle))
    (some (.int p.judgements.earlyDouble)) (some (.int p.judgements.lateDouble)) from rfl]
  rw [hx]
  rfl

lemma searchByChartScoresPhase_raises (powf : ℚ → ℚ → ℚ) (parseDate : String → Option ℤ)
    (fb : ℤ) (c : SChart) :
    ∀ validPasses : List SPass, (∀ p ∈ validPasses, wfJudge p.judgements) → validPasses ≠ [] →
      searchByChartScoresPhase powf parseDate fb c validPasses = .error "Incorrect key! chartId"
  | [], _, hne => absurd rfl hne
  | p :: rest, hwf, _ => by
    have h := mkChartResult_raises powf parseDate fb p c (hwf p (List.mem_cons_self p rest))
    unfold searchByChartScoresPhase
    rw [List.mapM_cons, h]
    rfl

lemma searchByPlayerScoresPhase_raises (powf : ℚ → ℚ → ℚ) (parseDate : String → Option ℤ)
    (fb pid : ℤ) (charts : List SChart) :
    ∀ pls : List SPass, (∀ p ∈ pls, wfJudge p.judgements) →
      (∃ p ∈ pls, (charts.find? fun c => c.id == p.levelId).isSome) →
      searchByPlayerScoresPhase powf parseDate fb pid charts pls =
        .error "Incorrect key! chartId"
  | [], _, hex => by simp at hex
  | p :: rest, hwf, hex => by
    unfold searchByPlayerScoresPhase
    rcases hf : charts.find? fun c => c.id == p.levelId with _ | c
    · rw [hf]
      have hex' : ∃ q ∈ rest, (charts.find? fun c => c.id == q.levelId).isSome := by
        rcases hex with ⟨q, hq, hsome⟩
        rcases List.mem_cons.mp hq with rfl | hq'
        · rw [hf] at hsome
          simp at hsome
        · exact ⟨q, hq', hsome⟩
      exact searchByPlayerScoresPhase_raises powf parseDate fb pid charts rest
        (fun q hq => hwf q (List.mem_cons_of_mem _ hq)) hex'
    · rw [hf]
      have h := mkPlayerResult_raises powf parseDate fb pid p c (hwf p (List.mem_cons_self p rest))
      simp only [h]
      rfl

/-! ## The claims -/

/-- C1: on every input where at least one pass resolves to a known chart (and
the judgement counts are well-formed data), both search pipelines raise
`ValueError` instead of returning a result: each ResultObj is built through
`updateParams` with the key `"chartId"`, which is not in `ResultObj`'s fixed
schema (the schema has `"levelId"`), so the schema-mismatch fail-fast path
fires on the very first record. -/
theorem C1_search_raises_ValueError (powf : ℚ → ℚ → ℚ) (parseDate : String → Option ℤ)
    (fb : ℤ) :
    (∀ (cid : ℤ) (chart : SChart) (charts : List SChart) (passes : List SPass),
      charts.find? (fun c => c.id == cid) = some chart →
      (∀ p ∈ passes.filter fun p => p.levelId == cid, wfJudge p.judgements) →
      passes.filter (fun p => p.levelId == cid) ≠ [] →
      searchByChartScoresPhase powf parseDate fb chart
        (passes.filter fun p => p.levelId == cid) = .error "Incorrect key! chartId") ∧
    (∀ (pid : ℤ) (charts : List SChart) (playerPasses : List SPass),
      (∀ p ∈ playerPasses, wfJudge p.judgements) →
      (∃ p ∈ playerPasses, (charts.find? fun c => c.id == p.levelId).isSome) →
      searchByPlayerScoresPhase powf parseDate fb pid charts playerPasses =
        .error "Incorrect key! chartId") :=
  ⟨fun _ chart _ passes _ hwf hne =>
    searchByChartScoresPhase_raises powf parseDate fb chart _ hwf hne,
   fun pid charts pls hwf hex =>
    searchByPlayerScoresPhase_raises powf parseDate fb pid charts pls hwf hex⟩

/-- C2: the spec's end-to-end reference value ≈3740.9 is NOT produced by the
code.  With the judgements array of Core.py's own `__main__` demo, `getScore`
raises `TypeError` (it string-indexes a list); with the same counts in the
named-dict form, the miss penalty is skipped (the all-ints check iterates the
dict's keys) and the result is `176381208/38135 ≈ 4625.2`, outside
`3740.9 ± 0.5`.  Both facts hold for every model `powf` of `math.pow`. -/
theorem C2_scoreV2_reference_value_fails (powf : ℚ → ℚ → ℚ) :
    getScoreV2 powf
        ⟨some 1, .array [.int 15, .int 0, .int 0, .int 2000, .int 0, .int 0, .int 0], false⟩
        ⟨21.15, 1600⟩ = .error "TypeError" ∧
    getScoreV2 powf ⟨some 1, judgementsOfCounts 15 0 0 2000 0 0 0, false⟩ ⟨21.15, 1600⟩ =
        .ok (176381208 / 38135) ∧
    3740.9 + 0.5 < (176381208 / 38135 : ℚ) := by
  have hm : getXaccMtpFn (xaccOfCounts 15 0 0 2000 0 0 0) = some (22047651 / 7627000) := by
    norm_num [xaccOfCounts, getXaccMtpFn]
  have hsc : getScore ⟨some 1, judgementsOfCounts 15 0 0 2000 0 0 0, false⟩ ⟨21.15, 1600⟩ =
      .ok (176381208 / 38135) := by
    rw [getScore_counts 15 0 0 2000 0 0 0 (some 1) false 21.15 1600 (22047651 / 7627000)
      (by norm_num) hm]
    norm_num [getSpeedMtp, getSpeedMtpGeneral]
  refine ⟨rfl, ?_, by norm_num⟩
  rw [getScoreV2_counts powf 15 0 0 2000 0 0 0 (some 1) false 21.15 1600 _ hsc]
  norm_num

/-- C4: the never-raises fallback policy fails on the code: `getXacc` on the
all-zero judgement ARRAY raises `ZeroDivisionError` (the array branch divides
by `sum(judgements)` with no guard and no enclosing `try`), even though the
dict branch on the same all-zero counts returns the documented 0.95
fallback. -/
theorem C4_getXacc_zero_total_raises :
    getXacc (.array [.int 0, .int 0, .int 0, .int 0, .int 0, .int 0, .int 0]) =
        .error "ZeroDivisionError" ∧
    getXacc (judgementsOfCounts 0 0 0 0 0 0 0) = .ok 0.95 := by
  constructor
  · rfl
  · rfl

/-- C6: `getScore` applies the floor at 1 exactly on the special variant
(`chartData['diff'] == 64`, the value the source binds to a local it calls
`legacyDiff`), and otherwise returns the unfloored product with the piecewise
speed curve exactly as the claim states it (`speedMtpClaimed` restates the
claim's curve; the source's curve coincides with it definitionally). -/
theorem C6_score_floor_and_speed_curve (eD eS ePf pf lP lS lD : ℤ) (sp : Option ℚ)
    (nht : Bool) (diff base m : ℚ)
    (hS : eD + eS + ePf + pf + lP + lS + lD ≠ 0)
    (hm : getXaccMtpFn (xaccOfCounts eD eS ePf pf lP lS lD) = some m) :
    getScore ⟨sp, judgementsOfCounts eD eS ePf pf lP lS lD, nht⟩ ⟨diff, base⟩ =
      .ok (if diff = 64 then max (base * m * getSpeedMtp sp true) 1
           else base * m * speedMtpClaimed sp) ∧
    (∀ s : Option ℚ, getSpeedMtp s false = speedMtpClaimed s) := by
  have he : ∀ s : Option ℚ, getSpeedMtp s false = speedMtpClaimed s := fun s => rfl
  refine ⟨?_, he⟩
  rw [getScore_counts eD eS ePf pf lP lS lD sp nht diff base m hS hm, he sp]

/-- C6 witness: perfect-accuracy pass at speed 1 on a non-special chart with
base score 100 scores `100 * 10 * 1`. -/
theorem C6_score_floor_witness :
    getScore ⟨some 1, judgementsOfCounts 0 0 0 10 0 0 0, false⟩ ⟨(0 : ℚ), 100⟩ =
      .ok (if (0 : ℚ) = 64 then max (100 * 10 * getSpeedMtp (some 1) true) 1
           else 100 * 10 * speedMtpClaimed (some 1)) ∧
    (∀ s : Option ℚ, getSpeedMtp s false = speedMtpClaimed s) :=
  C6_score_floor_and_speed_curve 0 0 0 10 0 0 0 (some 1) false 0 100 10 (by norm_num)
    (by norm_num [xaccOfCounts, getXaccMtpFn])

/-- C7: the accuracy multiplier returns 1 strictly below 0.95 accuracy, is
monotone non-decreasing on [0.95, 1), and returns 10 exactly at accuracy 1. -/
theorem C7_xaccMtp_curve :
    (∀ x : ℚ, x < 0.95 → getXaccMtpFn x = some 1) ∧
    (∀ x y : ℚ, 0.95 ≤ x → x ≤ y → y < 1 →
      ∃ a b, getXaccMtpFn x = some a ∧ getXaccMtpFn y = some b ∧ a ≤ b) ∧
    (∀ x : ℚ, getXaccMtpFn x = some 10 ↔ x = 1) := by
  have key : ∀ z : ℚ, -0.027 / (z - 1.0054) = 0.027 / (1.0054 - z) := by
    intro z
    rw [show z - 1.0054 = -(1.0054 - z) from by ring, div_neg, neg_div, neg_neg]
  refine ⟨?_, ?_, ?_⟩
  · intro x hx
    unfold getXaccMtpFn
    rw [if_pos (by linarith)]
  · intro x y hx hxy hy1
    have hx1 : x < 1 := lt_of_le_of_lt hxy hy1
    refine ⟨-0.027 / (x - 1.0054) + 0.513, -0.027 / (y - 1.0054) + 0.513, ?_, ?_, ?_⟩
    · unfold getXaccMtpFn
      rw [if_neg (by push_neg; linarith), if_pos (by linarith)]
    · unfold getXaccMtpFn
      rw [if_neg (by push_neg; linarith), if_pos (by linarith)]
    · rw [key, key]
      have h1 : (0 : ℚ) < 1.0054 - y := by linarith
      have h2 : 1.0054 - y ≤ 1.0054 - x := by linarith
      have h3 : (0.027 : ℚ) / (1.0054 - x) ≤ 0.027 / (1.0054 - y) := by
        gcongr
      linarith
  · intro x
    constructor
    · intro h
      unfold getXaccMtpFn at h
      by_cases h1 : x * 100 < 95
      · rw [if_pos h1] at h
        exact absurd (Option.some.inj h) (by norm_num)
      · by_cases h2 : x * 100 < 100
        · rw [if_neg h1, if_pos h2] at h
          have hc := Option.some.inj h
          rw [key] at hc
          have hx1 : x < 1 := by linarith
          have hpos : (0 : ℚ) < 1.0054 - x := by linarith
          have h5 : (0.027 : ℚ) / (1.0054 - x) < 5 := by
            rw [div_lt_iff₀ hpos]
            linarith
          linarith
        · by_cases h3 : x * 100 = 100
          · linarith
          · rw [if_neg h1, if_neg h2, if_neg h3] at h
            exact absurd h (by simp)
    · intro h
      subst h
      unfold getXaccMtpFn
      norm_num

/-- C8: on a named-bucket (PassRecord-shaped) judgements dict the miss-penalty
multiplier is never applied — `all(type(i) == int ...)` iterates the dict's
string keys — so `getScoreV2` is `getScore` times 0.9 when `isNoHoldTap` and
times 1 otherwise, for every model `powf` of `math.pow`. -/
theorem C8_dict_no_miss_penalty (powf : ℚ → ℚ → ℚ) (eD eS ePf pf lP lS lD : ℤ)
    (sp : Option ℚ) (nht : Bool) (diff base s : ℚ)
    (hsc : getScore ⟨sp, judgementsOfCounts eD eS ePf pf lP lS lD, nht⟩ ⟨diff, base⟩ = .ok s) :
    getScoreV2 powf ⟨sp, judgementsOfCounts eD eS ePf pf lP lS lD, nht⟩ ⟨diff, base⟩ =
      .ok (s * (if nht then 0.9 else 1)) := by
  rw [getScoreV2_counts powf eD eS ePf pf lP lS lD sp nht diff base s hsc]
  norm_num

/-- C8 witness: a `NoHoldTap` perfect pass with `getScore` 1000 gets
`scoreV2 = 1000 * 0.9`, the miss penalty (15 `earlyDouble`-style misses would
have fired it) never applying. -/
theorem C8_dict_no_miss_penalty_witness :
    getScoreV2 (fun _ _ => 0) ⟨some 1, judgementsOfCounts 0 0 0 10 0 0 0, true⟩ ⟨(0 : ℚ), 100⟩ =
      .ok (1000 * (if true then 0.9 else 1)) :=
  C8_dict_no_miss_penalty (fun _ _ => 0) 0 0 0 10 0 0 0 (some 1) true 0 100 1000
    (by rw [getScore_counts 0 0 0 10 0 0 0 (some 1) true 0 100 10 (by norm_num)
          (by norm_num [xaccOfCounts, getXaccMtpFn])]
        norm_num [getSpeedMtp, getSpeedMtpGeneral])

/-- C10: `updateParams` (shared by `PlayerObj` and `ResultObj`) errors exactly
when the update map carries a key outside the record's key set; when it errors
the params come back untouched (every key is validated before any write), and
otherwise the result is exactly Python's `dict.update`. -/
theorem C10_updateParams_fail_fast (V : Type) (params inp : List (String × V)) :
    ((updateParams params inp).2 = Option.none ↔
      ∀ k ∈ inp.map Prod.fst, k ∈ params.map Prod.fst) ∧
    ((updateParams params inp).2 ≠ Option.none → (updateParams params inp).1 = params) ∧
    ((updateParams params inp).2 = Option.none →
      (updateParams params inp).1 = dictUpdate params inp) := by
  rcases h : firstBadKey (params.map Prod.fst) (inp.map Prod.fst) with _ | k
  · have e : updateParams params inp = (dictUpdate params inp, Option.none) := by
      unfold updateParams
      rw [h]
    rw [e]
    exact ⟨⟨fun _ => (firstBadKey_eq_none_iff _ _).mp h, fun _ => rfl⟩,
      fun hc => absurd rfl hc, fun _ => rfl⟩
  · have e : updateParams params inp = (params, some ("Incorrect key! " ++ k)) := by
      unfold updateParams
      rw [h]
    rw [e]
    refine ⟨⟨fun hc => absurd hc (by simp), fun hall => ?_⟩, fun _ => rfl,
      fun hc => absurd hc (by simp)⟩
    have h2 := (firstBadKey_eq_none_iff (params.map Prod.fst) (inp.map Prod.fst)).mpr hall
    rw [h] at h2
    exact absurd h2 (by simp)



lemma filter_orderedInsert_of_pos {α : Type} (r : α → α → Prop) [DecidableRel r] (p : α → Bool)
    (a : α) (hpa : p a = true) :
    ∀ l : List α, (∀ b ∈ l, p b = true → r a b) →
      (List.orderedInsert r a l).filter p = a :: l.filter p
  | [], _ => by simp [List.orderedInsert, hpa]
  | b :: t, h => by
    rw [List.orderedInsert]
    by_cases hr : r a b
    · rw [if_pos hr, List.filter_cons_of_pos hpa]
    · rw [if_neg hr]
      have hpb : ¬ p b = true := fun hb => hr (h b (List.mem_cons_self b t) hb)
      rw [List.filter_cons_of_neg hpb, List.filter_cons_of_neg hpb]
      exact filter_orderedInsert_of_pos r p a hpa t fun c hc => h c (List.mem_cons_of_mem b hc)

lemma filter_orderedInsert_of_neg {α : Type} (r : α → α → Prop) [DecidableRel r] (p : α → Bool)
    (a : α) (hpa : ¬ p a = true) :
    ∀ l : List α, (List.orderedInsert r a l).filter p = l.filter p
  | [] => by
    rw [List.orderedInsert_nil, List.filter_cons_of_neg hpa]
  | b :: t => by
    rw [List.orderedInsert]
    by_cases hr : r a b
    · rw [if_pos hr, List.filter_cons_of_neg hpa]
    · by_cases hpb : p b = true
      · rw [if_neg hr, List.filter_cons_of_pos hpb, List.filter_cons_of_pos hpb,
          filter_orderedInsert_of_neg r p a hpa t]
      · rw [if_neg hr, List.filter_cons_of_neg hpb, List.filter_cons_of_neg hpb,
          filter_orderedInsert_of_neg r p a hpa t]

/-- A stable sort keeps mutually tied elements in their original order: the
filter to any pairwise-related class commutes with `insertionSort`. -/
lemma filter_insertionSort_tied {α : Type} (r : α → α → Prop) [DecidableRel r] (p : α → Bool)
    (hp : ∀ x y, p x = true → p y = true → r x y) :
    ∀ l : List α, (List.insertionSort r l).filter p = l.filter p
  | [] => rfl
  | a :: t => by
    rw [List.insertionSort]
    by_cases hpa : p a = true
    · rw [filter_orderedInsert_of_pos r p a hpa _ (fun b _ hb => hp a b hpa hb),
        filter_insertionSort_tied r p hp t, List.filter_cons_of_pos hpa]
    · rw [filter_orderedInsert_of_neg r p a hpa,
        filter_insertionSort_tied r p hp t, List.filter_cons_of_neg hpa]

lemma dedupKeepFirst_sublist (key : Rec → ℤ) :
    ∀ (D : List Rec) (used : List ℤ), (dedupKeepFirst key D used).Sublist D
  | [], _ => List.Sublist.refl []
  | r :: rest, used => by
    unfold dedupKeepFirst
    by_cases h : key r ∈ used
    · rw [if_pos h]
      exact (dedupKeepFirst_sublist key rest used).cons r
    · rw [if_neg h]
      exact (dedupKeepFirst_sublist key rest (key r :: used)).cons₂ r

lemma dedupKeepFirst_find (key : Rec → ℤ) :
    ∀ (D : List Rec) (used : List ℤ) (r : Rec), r ∈ dedupKeepFirst key D used →
      key r ∉ used ∧ D.find? (fun x => key x == key r) = some r
  | [], _, r, h => by simp [dedupKeepFirst] at h
  | a :: rest, used, r, h => by
    unfold dedupKeepFirst at h
    by_cases ha : key a ∈ used
    · rw [if_pos ha] at h
      obtain ⟨hnu, hfind⟩ := dedupKeepFirst_find key rest used r h
      have hne : ¬ (key a == key r) = true := by
        simp only [beq_iff_eq]
        intro he
        exact hnu (he ▸ ha)
      exact ⟨hnu, by rw [@List.find?_cons_of_neg Rec (fun x => key x == key r) a rest hne]; exact hfind⟩
    · rw [if_neg ha] at h
      rcases List.mem_cons.mp h with rfl | h'
      · exact ⟨ha, by rw [@List.find?_cons_of_pos Rec (fun x => key x == key r) r rest (by simp)]⟩
      · obtain ⟨hnu, hfind⟩ := dedupKeepFirst_find key rest (key a :: used) r h'
        have hner : key r ≠ key a := fun he => hnu (by rw [he]; exact List.mem_cons_self _ _)
        refine ⟨fun hu => hnu (List.mem_cons_of_mem _ hu), ?_⟩
        rw [@List.find?_cons_of_neg Rec (fun x => key x == key r) a rest
          (by simp only [beq_iff_eq]; exact fun he => hner he.symm)]
        exact hfind

lemma dedupKeepFirst_countP (key : Rec → ℤ) :
    ∀ (D : List Rec) (used : List ℤ) (c : ℤ),
      (dedupKeepFirst key D used).countP (fun r => key r == c) =
        if c ∉ used ∧ c ∈ D.map key then 1 else 0
  | [], used, c => by simp [dedupKeepFirst]
  | a :: rest, used, c => by
    unfold dedupKeepFirst
    by_cases ha : key a ∈ used
    · rw [if_pos ha, dedupKeepFirst_countP key rest used c]
      by_cases hcu : c ∈ used
      · simp [hcu]
      · by_cases hcr : c ∈ rest.map key
        · simp [hcu, hcr]
        · have hca : c ≠ key a := fun he => hcu (he ▸ ha)
          simp [hcu, hcr, hca]
    · rw [if_neg ha, List.countP_cons, dedupKeepFirst_countP key rest (key a :: used) c]
      by_cases hca : c = key a
      · subst hca
        simp [ha, List.mem_cons]
      · have hka : ¬ key a = c := fun he => hca he.symm
        by_cases hcu : c ∈ used
        · simp [hcu, hca, hka, List.mem_cons]
        · by_cases hcr : c ∈ rest.map key
          · simp [hcu, hca, hcr, hka, List.mem_cons]
          · simp [hcu, hca, hcr, hka, List.mem_cons]



lemma sortDescScore_sorted (l : List Rec) :
    (sortDescScore l).Sorted (fun a b => b.score ≤ a.score) := by
  unfold sortDescScore
  rw [List.Sorted, List.pairwise_reverse]
  exact List.sorted_insertionSort _ l

lemma sortDescScore_perm (l : List Rec) : (sortDescScore l).Perm l :=
  (List.reverse_perm _).trans (List.perm_insertionSort _ l)

lemma find_max_of_sortedDesc (key : Rec → ℤ) :
    ∀ D : List Rec, D.Sorted (fun a b => b.score ≤ a.score) →
      ∀ c r, D.find? (fun x => key x == c) = some r →
        ∀ x ∈ D, key x = c → x.score ≤ r.score
  | [], _, c, r, h => by simp at h
  | a :: rest, hs, c, r, h => by
    rw [List.sorted_cons] at hs
    obtain ⟨hle, hs'⟩ := hs
    by_cases ha : (key a == c) = true
    · rw [@List.find?_cons_of_pos Rec (fun x => key x == c) a rest ha] at h
      obtain rfl := Option.some.inj h
      intro x hx _
      rcases List.mem_cons.mp hx with rfl | hx'
      · exact le_refl _
      · exact hle x hx'
    · rw [@List.find?_cons_of_neg Rec (fun x => key x == c) a rest ha] at h
      intro x hx hxc
      rcases List.mem_cons.mp hx with rfl | hx'
      · exact absurd (by simp [hxc]) ha
      · exact find_max_of_sortedDesc key rest hs' c r h x hx' hxc

lemma head_filter_of_find (p q : Rec → Bool) (hq : ∀ x, q x = true → p x = true) :
    ∀ (D : List Rec) (r : Rec), q r = true → D.find? p = some r →
      (D.filter q).head? = some r
  | [], r, _, h => by simp at h
  | a :: rest, r, hqr, h => by
    by_cases hpa : p a = true
    · rw [List.find?_cons_of_pos rest hpa] at h
      obtain rfl := Option.some.inj h
      rw [List.filter_cons_of_pos hqr]
      rfl
    · rw [List.find?_cons_of_neg rest hpa] at h
      have hqa : ¬ q a = true := fun hqa => hpa (hq a hqa)
      rw [List.filter_cons_of_neg hqa]
      exact head_filter_of_find p q hq rest r hqr h

/-- The record `dedupKeepFirst` keeps for its key class is the LAST of the
maximal-score class members in the original order. -/
lemma dedup_tie_last (key : Rec → ℤ) (l : List Rec) (r : Rec)
    (hr : r ∈ dedupKeepFirst key (sortDescScore l) []) :
    (l.filter fun x => key x == key r && x.score == r.score).getLast? = some r := by
  obtain ⟨_, hfind⟩ := dedupKeepFirst_find key (sortDescScore l) [] r hr
  have hhead := head_filter_of_find (fun x => key x == key r)
    (fun x => key x == key r && x.score == r.score)
    (fun x hx => by
      simp only [Bool.and_eq_true] at hx
      exact hx.1)
    (sortDescScore l) r (by simp) hfind
  rw [show sortDescScore l = (List.insertionSort (fun a b => a.score ≤ b.score) l).reverse
      from rfl, List.filter_reverse, List.head?_reverse] at hhead
  rw [filter_insertionSort_tied (fun a b => a.score ≤ b.score)
    (fun x => key x == key r && x.score == r.score)
    (fun x y hx hy => by
      simp only [Bool.and_eq_true, beq_iff_eq] at hx hy
      rw [hx.2, hy.2]) l] at hhead
  exact hhead



/-- C3 (amended): for each key class (chartId in `searchByPlayer`, playerId in
`searchByChart`) exactly one record survives the sort+dedup, it carries the
maximum score of its class, and among score ties it is the record encountered
LAST in the original input order — not first, as the claim stated: the
descending order comes from reversing a stable ascending sort, which reverses
the order of ties before the keep-first dedup runs. -/
theorem C3_dedup_keeps_max_last_tie (key : Rec → ℤ) (l : List Rec) :
    (∀ c : ℤ, (dedupKeepFirst key (sortDescScore l) []).countP (fun r => key r == c) =
      if c ∈ l.map key then 1 else 0) ∧
    (∀ r ∈ dedupKeepFirst key (sortDescScore l) [], ∀ x ∈ l, key x = key r →
      x.score ≤ r.score) ∧
    (∀ r ∈ dedupKeepFirst key (sortDescScore l) [],
      (l.filter fun x => key x == key r && x.score == r.score).getLast? = some r) ∧
    searchByPlayerDedup l = dedupKeepFirst (fun r => r.chartId) (sortDescScore l) [] := by
  refine ⟨?_, ?_, fun r hr => dedup_tie_last key l r hr, rfl⟩
  · intro c
    rw [dedupKeepFirst_countP key (sortDescScore l) [] c]
    have hmem : c ∈ (sortDescScore l).map key ↔ c ∈ l.map key :=
      ((sortDescScore_perm l).map key).mem_iff
    by_cases hc : c ∈ l.map key
    · rw [if_pos ⟨by simp, hmem.mpr hc⟩, if_pos hc]
    · rw [if_neg (fun hx => hc (hmem.mp hx.2)), if_neg hc]
  · intro r hr x hx hkey
    obtain ⟨_, hfind⟩ := dedupKeepFirst_find key (sortDescScore l) [] r hr
    exact find_max_of_sortedDesc key (sortDescScore l) (sortDescScore_sorted l) (key r) r hfind
      x ((sortDescScore_perm l).mem_iff.mpr hx) hkey

/-- C3 counterexample: two same-chart records tied on score; dedup keeps the
second-encountered record, not the first. -/
theorem C3_counterexample_first_tie_not_kept :
    searchByPlayerDedup [⟨10, 5, 1, 1, 0, false, false⟩, ⟨10, 5, 1, 2, 0, false, false⟩] =
        [⟨10, 5, 1, 2, 0, false, false⟩] ∧
    (⟨10, 5, 1, 2, 0, false, false⟩ : Rec) ≠ ⟨10, 5, 1, 1, 0, false, false⟩ := by
  constructor
  · decide
  · decide



lemma pairwise_ne_inj {f : Rec → ℤ} {l : List Rec} (h : l.Pairwise fun a b => f a ≠ f b)
    {x y : Rec} (hx : x ∈ l) (hy : y ∈ l) (hf : f x = f y) : x = y := by
  by_contra hne
  have hsymm : Symmetric (fun a b : Rec => f a ≠ f b) := fun a b hab he => hab he.symm
  exact List.Pairwise.forall hsymm h hx hy hne hf

lemma countP_key_le_one (f : Rec → ℤ) :
    ∀ l : List Rec, (l.Pairwise fun a b => f a ≠ f b) → ∀ c : ℤ,
      l.countP (fun x => f x == c) ≤ 1
  | [], _, c => by simp
  | a :: t, h, c => by
    rw [List.pairwise_cons] at h
    rw [List.countP_cons]
    by_cases hac : (f a == c) = true
    · have h0 : t.countP (fun x => f x == c) = 0 := List.countP_eq_zero.mpr (fun b hb hbc => by
        simp only [beq_iff_eq] at hac hbc
        exact h.1 b hb (hac.trans hbc.symm))
      simp [h0, hac]
    · have := countP_key_le_one f t h.2 c
      rw [if_neg hac]
      omega

lemma dateSorted_head_min (l : List Rec) (hne : l ≠ []) :
    ∃ w t, List.insertionSort (fun a b => a.date ≤ b.date) (sortDescScore l) = w :: t ∧
      w ∈ l ∧ ∀ x ∈ l, w.date ≤ x.date := by
  have hperm : (List.insertionSort (fun a b => a.date ≤ b.date) (sortDescScore l)).Perm l :=
    (List.perm_insertionSort _ _).trans (sortDescScore_perm l)
  have hsorted := List.sorted_insertionSort (fun (a b : Rec) => a.date ≤ b.date) (sortDescScore l)
  rcases hS : List.insertionSort (fun a b => a.date ≤ b.date) (sortDescScore l) with _ | ⟨w, t⟩
  · rw [hS] at hperm
    exact absurd (hperm.symm.eq_nil) hne
  · rw [hS] at hperm hsorted
    rw [List.sorted_cons] at hsorted
    refine ⟨w, t, hS, hperm.mem_iff.mp (List.mem_cons_self w t), fun x hx => ?_⟩
    rcases List.mem_cons.mp (hperm.mem_iff.mpr hx) with rfl | hx'
    · exact le_refl _
    · exact hsorted.1 x hx'

lemma markWorldsFirst_eq (l : List Rec) (w : Rec) (t : List Rec)
    (hS : List.insertionSort (fun a b => a.date ≤ b.date) (sortDescScore l) = w :: t) :
    markWorldsFirst l = (sortDescScore l).map
      (fun r => if r.passId = w.passId then { r with isWorldsFirst := true } else r) := by
  show (match (List.insertionSort (fun a b => a.date ≤ b.date) (sortDescScore l)).head? with
    | Option.none => sortDescScore l
    | some v => (sortDescScore l).map
        fun r => if r.passId = v.passId then { r with isWorldsFirst := true } else r) =
    (sortDescScore l).map
      (fun r => if r.passId = w.passId then { r with isWorldsFirst := true } else r)
  rw [hS]
  rfl

/-- C5 (amended): with distinct parseable dates the record marked world-first
is exactly the earliest-dated one regardless of input order, and the
deduplicated per-chart leaderboard has one entry per distinct player in
score-descending order — but the world-first flag is set on AT MOST one entry,
not exactly one: when the earliest pass is not its player's highest-scoring
pass, dedup drops the flagged record and no returned entry carries the flag. -/
theorem C5_worldfirst_flag (l : List Rec) (hne : l ≠ [])
    (hdates : l.Pairwise fun a b => a.date ≠ b.date)
    (hpass : l.Pairwise fun a b => a.passId ≠ b.passId)
    (hwf : ∀ r ∈ l, r.isWorldsFirst = false) :
    (∀ r ∈ markWorldsFirst l, (r.isWorldsFirst = true ↔ ∀ x ∈ l, r.date ≤ x.date)) ∧
    (searchByChartBoard l).countP (fun r => r.isWorldsFirst) ≤ 1 ∧
    (∀ pid : ℤ, (searchByChartBoard l).countP (fun r => r.playerId == pid) =
      if pid ∈ l.map (fun r => r.playerId) then 1 else 0) ∧
    (searchByChartBoard l).Sorted (fun a b => b.score ≤ a.score) := by
  obtain ⟨w, t, hS, hwl, hwmin⟩ := dateSorted_head_min l hne
  have hmark := markWorldsFirst_eq l w t hS
  set f : Rec → Rec :=
    fun r => if r.passId = w.passId then { r with isWorldsFirst := true } else r with hf
  have hperm := sortDescScore_perm l
  have hscore : ∀ x : Rec, (f x).score = x.score := fun x => by
    by_cases hid : x.passId = w.passId <;> simp [hf, hid]
  have hplayer : ∀ x : Rec, (f x).playerId = x.playerId := fun x => by
    by_cases hid : x.passId = w.passId <;> simp [hf, hid]
  have hdate : ∀ x : Rec, (f x).date = x.date := fun x => by
    by_cases hid : x.passId = w.passId <;> simp [hf, hid]
  refine ⟨?_, ?_, ?_, ?_⟩
  · intro r hr
    rw [hmark] at hr
    obtain ⟨x, hxS, hxr⟩ := List.mem_map.mp hr
    have hxl : x ∈ l := hperm.mem_iff.mp hxS
    constructor
    · intro hflag
      by_cases hid : x.passId = w.passId
      · have hxw : x = w := pairwise_ne_inj hpass hxl hwl hid
        subst hxw
        intro y hy
        rw [← hxr, hdate x]
        exact hwmin y hy
      · rw [← hxr] at hflag
        simp only [hf, if_neg hid] at hflag
        rw [hwf x hxl] at hflag
        exact absurd hflag (by simp)
    · intro hmin
      have hxmin : ∀ y ∈ l, x.date ≤ y.date := by
        intro y hy
        have := hmin y hy
        rw [← hxr, hdate x] at this
        exact this
      have hxw : x = w := pairwise_ne_inj hdates hxl hwl
        (le_antisymm (hxmin w hwl) (hwmin x hxl))
      subst hxw
      rw [← hxr]
      simp [hf]
  · have hpairS : (sortDescScore l).Pairwise (fun a b => a.passId ≠ b.passId) :=
      (hperm.pairwise_iff (fun hab he => hab he.symm)).mpr hpass
    have hsub : (searchByChartBoard l).Sublist (markWorldsFirst l) :=
      dedupKeepFirst_sublist _ _ []
    refine le_trans (List.Sublist.countP_le _ hsub) ?_
    rw [hmark, List.countP_map]
    refine le_trans (List.countP_mono_left (fun x hxS hflag => ?_))
      (countP_key_le_one (fun r => r.passId) (sortDescScore l) hpairS w.passId)
    by_cases hid : x.passId = w.passId
    · simp [hid]
    · simp only [Function.comp_apply, hf, if_neg hid] at hflag
      rw [hwf x (hperm.mem_iff.mp hxS)] at hflag
      exact absurd hflag (by simp)
  · intro pid
    unfold searchByChartBoard
    rw [dedupKeepFirst_countP (fun r => r.playerId) (markWorldsFirst l) [] pid]
    have h1 : (markWorldsFirst l).map (fun r => r.playerId) =
        (sortDescScore l).map (fun r => r.playerId) := by
      rw [hmark, List.map_map]
      have he : ((fun r : Rec => r.playerId) ∘ f) = fun r : Rec => r.playerId := by
        funext x
        exact hplayer x
      rw [he]
    have h2 : pid ∈ (sortDescScore l).map (fun r => r.playerId) ↔
        pid ∈ l.map (fun r => r.playerId) := (hperm.map _).mem_iff
    by_cases hc : pid ∈ l.map (fun r => r.playerId)
    · rw [if_pos ⟨by simp, by rw [h1]; exact h2.mpr hc⟩, if_pos hc]
    · rw [if_neg (fun hx => hc (h2.mp (h1 ▸ hx.2))), if_neg hc]
  · have hsorted : (markWorldsFirst l).Sorted (fun a b => b.score ≤ a.score) := by
      rw [hmark, List.Sorted, List.pairwise_map]
      refine (sortDescScore_sorted l).imp (fun hab => ?_)
      rw [hscore, hscore]
      exact hab
    exact List.Pairwise.sublist (dedupKeepFirst_sublist _ _ []) hsorted

/-- C5 counterexample: one player, two passes; the earlier-dated pass scores
lower, so the returned leaderboard has ZERO world-first entries. -/
theorem C5_counterexample_zero_flags :
    (searchByChartBoard [⟨10, 1, 7, 1, 0, false, false⟩, ⟨20, 1, 7, 2, 5, false, false⟩]).countP
      (fun r => r.isWorldsFirst) = 0 := by decide

/-- C5 witness: two distinct players; the amended statement holds concretely. -/
theorem C5_worldfirst_flag_witness :
    (∀ r ∈ markWorldsFirst [⟨10, 1, 1, 1, 5, false, false⟩, ⟨20, 1, 2, 2, 3, false, false⟩],
      (r.isWorldsFirst = true ↔
        ∀ x ∈ [(⟨10, 1, 1, 1, 5, false, false⟩ : Rec), ⟨20, 1, 2, 2, 3, false, false⟩],
          r.date ≤ x.date)) ∧
    (searchByChartBoard [⟨10, 1, 1, 1, 5, false, false⟩, ⟨20, 1, 2, 2, 3, false, false⟩]).countP
      (fun r => r.isWorldsFirst) ≤ 1 ∧
    (∀ pid : ℤ,
      (searchByChartBoard [⟨10, 1, 1, 1, 5, false, false⟩, ⟨20, 1, 2, 2, 3, false, false⟩]).countP
        (fun r => r.playerId == pid) =
      if pid ∈ [(⟨10, 1, 1, 1, 5, false, false⟩ : Rec), ⟨20, 1, 2, 2, 3, false, false⟩].map
          (fun r => r.playerId) then 1 else 0) ∧
    (searchByChartBoard [⟨10, 1, 1, 1, 5, false, false⟩,
      ⟨20, 1, 2, 2, 3, false, false⟩]).Sorted (fun a b => b.score ≤ a.score) :=
  C5_worldfirst_flag [⟨10, 1, 1, 1, 5, false, false⟩, ⟨20, 1, 2, 2, 3, false, false⟩]
    (by decide) (by decide) (by decide) (by decide)



lemma pyKeyLt_asymm : ∀ a b : PyKey, ¬ (pyKeyLt a b ∧ pyKeyLt b a)
  | .num _, .num _ => fun h => absurd h.1 (not_lt.mpr (le_of_lt h.2))
  | .str _, .str _ => fun h => absurd h.1 (not_lt.mpr (le_of_lt h.2))
  | .num _, .str _ => fun h => h.1
  | .str _, .num _ => fun h => h.1

lemma pyListLt_asymm : ∀ xs ys : List PyKey, ¬ (pyListLt xs ys ∧ pyListLt ys xs)
  | [], [], h => h.1
  | [], _ :: _, h => h.2
  | _ :: _, [], h => h.1
  | x :: xs, y :: ys, h => by
    rcases h.1 with h1 | ⟨he1, h1⟩
    · rcases h.2 with h2 | ⟨he2, h2⟩
      · exact pyKeyLt_asymm x y ⟨h1, h2⟩
      · subst he2
        exact pyKeyLt_asymm _ _ ⟨h1, h1⟩
    · subst he1
      rcases h.2 with h2 | ⟨_, h2⟩
      · exact pyKeyLt_asymm _ _ ⟨h2, h2⟩
      · exact pyListLt_asymm xs ys ⟨h1, h2⟩

lemma pyKeyLt_num_total (a b : ℚ) (h : PyKey.num a ≠ PyKey.num b) :
    pyKeyLt (.num a) (.num b) ∨ pyKeyLt (.num b) (.num a) := by
  rcases lt_trichotomy a b with h1 | h1 | h1
  · exact Or.inl h1
  · exact absurd (by rw [h1]) h
  · exact Or.inr h1

lemma pyKeyLt_str_total (a b : String) (h : PyKey.str a ≠ PyKey.str b) :
    pyKeyLt (.str a) (.str b) ∨ pyKeyLt (.str b) (.str a) := by
  rcases lt_trichotomy a b with h1 | h1 | h1
  · exact Or.inl h1
  · exact absurd (by rw [h1]) h
  · exact Or.inr h1

lemma pyListLt_cons_total {x y : PyKey} {xs ys : List PyKey}
    (hxy : x ≠ y → pyKeyLt x y ∨ pyKeyLt y x)
    (hrec : xs ≠ ys → pyListLt xs ys ∨ pyListLt ys xs)
    (hne : x :: xs ≠ y :: ys) :
    pyListLt (x :: xs) (y :: ys) ∨ pyListLt (y :: ys) (x :: xs) := by
  by_cases hx : x = y
  · subst hx
    have hne' : xs ≠ ys := fun h => hne (by rw [h])
    rcases hrec hne' with h | h
    · exact Or.inl (Or.inr ⟨rfl, h⟩)
    · exact Or.inr (Or.inr ⟨rfl, h⟩)
  · rcases hxy hx with h | h
    · exact Or.inl (Or.inl h)
    · exact Or.inr (Or.inl h)

/-- C9 (amended): the composite leaderboard key (primary `rankedScore`, then
the fixed tie-break list ending in the player name) orders strictly every two
records whose ELEVEN key fields differ anywhere: one precedes the other and
never both.  Records that agree on all eleven key fields — they can still be
distinct, differing in `playerId`, `wfScore` or `country`, none of which is in
the key — compare equal (see the counterexample). -/
theorem C9_sort_key_total_order (p q : PlayerParams)
    (hne : playerSortKey p ≠ playerSortKey q) :
    (pyListLt (playerSortKey p) (playerSortKey q) ∨
     pyListLt (playerSortKey q) (playerSortKey p)) ∧
    ¬ (pyListLt (playerSortKey p) (playerSortKey q) ∧
       pyListLt (playerSortKey q) (playerSortKey p)) := by
  refine ⟨?_, pyListLt_asymm _ _⟩
  have hp : ∀ x : PlayerParams, playerSortKey x = [.num x.rankedScore, .num x.generalScore,
      .num (x.universalPasses : ℚ), .num x.avgXacc, .num x.ppScore, .num x.twelveKScore,
      .num (x.WFPasses : ℚ), .num (x.totalPasses : ℚ), .str x.topDiff, .str x.top12kDiff,
      .str x.player] := fun x => rfl
  rw [hp p, hp q] at hne ⊢
  exact pyListLt_cons_total (pyKeyLt_num_total _ _)
    (pyListLt_cons_total (pyKeyLt_num_total _ _)
      (pyListLt_cons_total (pyKeyLt_num_total _ _)
        (pyListLt_cons_total (pyKeyLt_num_total _ _)
          (pyListLt_cons_total (pyKeyLt_num_total _ _)
            (pyListLt_cons_total (pyKeyLt_num_total _ _)
              (pyListLt_cons_total (pyKeyLt_num_total _ _)
                (pyListLt_cons_total (pyKeyLt_num_total _ _)
                  (pyListLt_cons_total (pyKeyLt_str_total _ _)
                    (pyListLt_cons_total (pyKeyLt_str_total _ _)
                      (pyListLt_cons_total (pyKeyLt_str_total _ _)
                        (fun h => absurd rfl h))))))))))) hne

/-- C9 counterexample: two distinct player records (different `playerId`,
`wfScore`, `country`) with identical sort keys — the claim's "no two distinct
players compare equal" fails. -/
theorem C9_counterexample_equal_keys_distinct_players :
    playerSortKey ⟨"alice", 1, 10, 20, 5, 7, 3, 0.9, 4, 2, 1, "U7", "P1", "KR"⟩ =
      playerSortKey ⟨"alice", 2, 10, 20, 5, 99, 3, 0.9, 4, 2, 1, "U7", "P1", "US"⟩ ∧
    (⟨"alice", 1, 10, 20, 5, 7, 3, 0.9, 4, 2, 1, "U7", "P1", "KR"⟩ : PlayerParams) ≠
      ⟨"alice", 2, 10, 20, 5, 99, 3, 0.9, 4, 2, 1, "U7", "P1", "US"⟩ := by
  constructor
  · rfl
  · decide

/-- C9 witness: two records differing in `rankedScore` are ordered strictly. -/
theorem C9_sort_key_total_order_witness :
    (pyListLt (playerSortKey ⟨"alice", 1, 10, 0, 0, 0, 0, 0.9, 0, 0, 0, "U7", "P1", "KR"⟩)
       (playerSortKey ⟨"bob", 2, 11, 0, 0, 0, 0, 0.9, 0, 0, 0, "U7", "P1", "US"⟩) ∨
     pyListLt (playerSortKey ⟨"bob", 2, 11, 0, 0, 0, 0, 0.9, 0, 0, 0, "U7", "P1", "US"⟩)
       (playerSortKey ⟨"alice", 1, 10, 0, 0, 0, 0, 0.9, 0, 0, 0, "U7", "P1", "KR"⟩)) ∧
    ¬ (pyListLt (playerSortKey ⟨"alice", 1, 10, 0, 0, 0, 0, 0.9, 0, 0, 0, "U7", "P1", "KR"⟩)
         (playerSortKey ⟨"bob", 2, 11, 0, 0, 0, 0, 0.9, 0, 0, 0, "U7", "P1", "US"⟩) ∧
       pyListLt (playerSortKey ⟨"bob", 2, 11, 0, 0, 0, 0, 0.9, 0, 0, 0, "U7", "P1", "US"⟩)
         (playerSortKey ⟨"alice", 1, 10, 0, 0, 0, 0, 0.9, 0, 0, 0, "U7", "P1", "KR"⟩)) :=
  C9_sort_key_total_order ⟨"alice", 1, 10, 0, 0, 0, 0, 0.9, 0, 0, 0, "U7", "P1", "KR"⟩
    ⟨"bob", 2, 11, 0, 0, 0, 0, 0.9, 0, 0, 0, "U7", "P1", "US"⟩ (by decide)

end TUF
